import Mathlib

/-!
Shallow embedding of the pyro-workspace transaction confirmation tracker:
the `retry` helper (packages/utils/src/index.ts), the EVM
`waitForConfirmation` loop (packages/evm-sdk/src/index.ts), and the two
Solana `waitForConfirmation` loops (the unnamed module `part_000`, which
throws `TransactionError` / `TimeoutError`, and packages/solana-sdk's
version, which returns `failed` / `pending` results instead of throwing).

RPC calls are modelled by environments that give each call's outcome: a
JS promise either resolves (`Except.ok`) or rejects (`Except.error`).
Real time is modelled by an explicit `elapsed` counter: every loop
iteration that does not return advances it by the iteration's RPC time
plus the fixed inter-poll sleep (2000 ms for EVM, 500 ms for Solana).
The loops recurse structurally on a `fuel` argument; the top-level entry
points pass `fuel := timeoutMs`, which can never be exhausted before the
`elapsed < timeoutMs` deadline check fails, because each iteration adds
at least the sleep interval (≥ 500 > 1) to `elapsed`; the fuel-0 branch
therefore returns the same timeout outcome as the deadline exit.
-/

namespace Pyro

/-- Decidable equality for `Except`, needed so concrete runs of the
models can be checked by `decide`. -/
instance exceptDecEq {ε α : Type} [DecidableEq ε] [DecidableEq α] :
    DecidableEq (Except ε α)
  | .ok a, .ok b =>
    if h : a = b then .isTrue (by rw [h])
    else .isFalse (by intro hh; cases hh; exact h rfl)
  | .ok _, .error _ => .isFalse (by intro h; cases h)
  | .error _, .ok _ => .isFalse (by intro h; cases h)
  | .error e, .error f =>
    if h : e = f then .isTrue (by rw [h])
    else .isFalse (by intro hh; cases hh; exact h rfl)

/-- Outcome of a single RPC call: the promise resolves with a value or
rejects with an error message (the message content is irrelevant). -/
abbrev Rpc (α : Type) : Type := Except String α

/-- The `status` field of a `TransactionResult`. -/
inductive TxStatus : Type
  | pending
  | confirmed
  | failed
deriving DecidableEq, Repr

/-- Model of `TransactionResult` as produced by the SDKs: optional fields are
`Option`; a JS `undefined` field is `none`. -/
structure TransactionResult : Type where
  txHash : String
  status : TxStatus
  blockNumber : Option Nat := none
  blockHash : Option String := none
  confirmations : Option Int := none
deriving DecidableEq, Repr

/-- Result of running the `retry` helper: `outcome` is the returned value
or the thrown error (`Except.error none` models `throw lastError!` when
`lastError` was never assigned, i.e. throwing `undefined`); `calls` counts
invocations of the wrapped operation; `sleeps` lists the requested
inter-attempt sleep durations in order. -/
structure RetryResult (α : Type) : Type where
  outcome : Except (Option String) α
  calls : Nat
  sleeps : List Nat
deriving DecidableEq, Repr

/-- The loop of `retry` (packages/utils/src/index.ts lines 69-86), with the
attempt index `i` and the remaining number of allowed attempts explicit:
`remaining = maxRetries - i`.  The `i`-th invocation of the operation
yields `attempts i`.  On a failure at attempt `i` with attempts remaining
(`i < maxRetries - 1`), a sleep of `delay * (i + 1)` is requested. -/
def retryGo (attempts : Nat → Rpc α) (delay : Nat) :
    (remaining : Nat) → (i : Nat) → (last : Option String) → RetryResult α
  | 0, i, last => ⟨.error last, i, []⟩
  | remaining + 1, i, _last =>
    match attempts i with
    | .ok v => ⟨.ok v, i + 1, []⟩
    | .error e =>
      if remaining = 0 then
        ⟨.error (some e), i + 1, []⟩
      else
        let r := retryGo attempts delay remaining (i + 1) (some e)
        ⟨r.outcome, r.calls, delay * (i + 1) :: r.sleeps⟩

/-- Model of `retry(fn, maxRetries, delay)` from packages/utils/src/index.ts, with
the successive outcomes of `fn` given by `attempts`. -/
def retryModel (attempts : Nat → Rpc α) (maxRetries delay : Nat) : RetryResult α :=
  retryGo attempts delay maxRetries 0 none

/-- An EVM transaction receipt as used by the tracker: `statusCode` is
ethers' `receipt.status`, where `0` marks an on-chain failure. -/
structure Receipt : Type where
  hash : String
  blockNumber : Nat
  blockHash : String
  statusCode : Nat
deriving DecidableEq, Repr

/-- Environment of one EVM `waitForConfirmation` run: per loop iteration,
the attempt outcomes of the retried `getTransactionReceipt`, the outcome
of `provider.getBlockNumber`, and the time the iteration's RPC work takes
(on top of the fixed 2000 ms inter-poll sleep). -/
structure EvmEnv : Type where
  receiptAttempts : Nat → Nat → Rpc (Option Receipt)
  currentBlock : Nat → Rpc Nat
  rpcTime : Nat → Nat

/-- The errors that can escape a tracker: `TransactionError` for a
chain-reported failure and `TimeoutError` (carrying `timeoutMs / 1000`
seconds and the handle) for an elapsed deadline. -/
inductive WaitErr : Type
  | txFailed (txHash : String)
  | timeout (seconds : Nat) (txHash : String)
deriving DecidableEq, Repr

/-- Result of an EVM `waitForConfirmation` run, instrumented with the
number of (retry-wrapped) `getTransactionReceipt` polls and the number of
`getBlockNumber` calls performed. -/
structure EvmWaitResult : Type where
  outcome : Except WaitErr TransactionResult
  statusPolls : Nat
  blockNumberCalls : Nat
deriving DecidableEq, Repr

/-- The polling loop of `EVMSDK.waitForConfirmation`
(packages/evm-sdk/src/index.ts lines 350-458).  Per iteration: the
receipt is fetched through `retry(·, 3, 1000)`; a rejection after retries
is caught and the loop continues after the 2000 ms sleep; a null receipt
sleeps and continues; with `maxConfirmations > 1` the current block is
queried and `confirmations = currentBlock - receipt.blockNumber + 1` is
compared against `maxConfirmations` before the `receipt.status === 0`
check; with `maxConfirmations ≤ 1` the status check and the confirmed
result (hard-coded `confirmations = 1`) happen at once.  A thrown
`TransactionError` is rethrown by the catch block, so it escapes. -/
def evmWaitGo (env : EvmEnv) (txHash : String) (maxConfirmations : Int)
    (timeoutMs : Nat) :
    (fuel : Nat) → (elapsed i polls blockCalls : Nat) → EvmWaitResult
  | 0, _, _, polls, blockCalls =>
    ⟨.error (.timeout (timeoutMs / 1000) txHash), polls, blockCalls⟩
  | fuel + 1, elapsed, i, polls, blockCalls =>
    if elapsed < timeoutMs then
      match (retryModel (env.receiptAttempts i) 3 1000).outcome with
      | .error _ =>
        evmWaitGo env txHash maxConfirmations timeoutMs fuel
          (elapsed + env.rpcTime i + 2000) (i + 1) (polls + 1) blockCalls
      | .ok none =>
        evmWaitGo env txHash maxConfirmations timeoutMs fuel
          (elapsed + env.rpcTime i + 2000) (i + 1) (polls + 1) blockCalls
      | .ok (some receipt) =>
        if maxConfirmations > 1 then
          match env.currentBlock i with
          | .error _ =>
            evmWaitGo env txHash maxConfirmations timeoutMs fuel
              (elapsed + env.rpcTime i + 2000) (i + 1) (polls + 1) (blockCalls + 1)
          | .ok currentBlock =>
            if (currentBlock : Int) - (receipt.blockNumber : Int) + 1 ≥ maxConfirmations then
              if receipt.statusCode = 0 then
                ⟨.error (.txFailed txHash), polls + 1, blockCalls + 1⟩
              else
                ⟨.ok { txHash := receipt.hash, status := .confirmed,
                       blockNumber := some receipt.blockNumber,
                       blockHash := some receipt.blockHash,
                       confirmations :=
                         some ((currentBlock : Int) - (receipt.blockNumber : Int) + 1) },
                 polls + 1, blockCalls + 1⟩
            else
              evmWaitGo env txHash maxConfirmations timeoutMs fuel
                (elapsed + env.rpcTime i + 2000) (i + 1) (polls + 1) (blockCalls + 1)
        else
          if receipt.statusCode = 0 then
            ⟨.error (.txFailed txHash), polls + 1, blockCalls⟩
          else
            ⟨.ok { txHash := receipt.hash, status := .confirmed,
                   blockNumber := some receipt.blockNumber,
                   blockHash := some receipt.blockHash,
                   confirmations := some 1 },
             polls + 1, blockCalls⟩
    else ⟨.error (.timeout (timeoutMs / 1000) txHash), polls, blockCalls⟩

/-- Computation `timeout ? timeout * 1000 : 60000`: the EVM timeout in ms; `timeout`
is in seconds, and both `undefined` and `0` (falsy) give the 60 s default. -/
def evmTimeoutMs : Option Nat → Nat
  | some t => if t = 0 then 60000 else t * 1000
  | none => 60000

/-- Entry point `EVMSDK.waitForConfirmation(txHash, maxConfirmations, timeout)`. -/
def evmWaitForConfirmation (env : EvmEnv) (txHash : String)
    (maxConfirmations : Int) (timeout : Option Nat) : EvmWaitResult :=
  evmWaitGo env txHash maxConfirmations (evmTimeoutMs timeout)
    (evmTimeoutMs timeout) 0 0 0 0

/-- Solana commitment level.  The `status` parameter of
`waitForConfirmation` maps onto `commitment` identically (`processed` ↦
`processed`, `finalized` ↦ `finalized`, anything else ↦ `confirmed`). -/
inductive Commitment : Type
  | processed
  | confirmed
  | finalized
deriving DecidableEq, Repr

/-- Model of `getSignatureStatus(...).value` when non-null: `err` is the
chain-reported error (`none` = JS null), `slot` the reported slot,
`confirmations` the nullable confirmation count, `confirmationStatus` the
optional commitment label. -/
structure SigStatus : Type where
  err : Option String
  slot : Nat
  confirmations : Option Nat
  confirmationStatus : Option Commitment
deriving DecidableEq, Repr

/-- The part of a `getBlock` response the tracker reads. -/
structure BlockInfo : Type where
  blockhash : String
deriving DecidableEq, Repr

/-- The JS condition guarding the commitment-level match
(`signatureStatus.value.confirmationStatus === commitment ||
(commitment === "confirmed" && ... === "finalized")`). -/
def commitmentMatch (commitment : Commitment) (cs : Option Commitment) : Prop :=
  cs = some commitment ∨
    (commitment = Commitment.confirmed ∧ cs = some Commitment.finalized)

instance (c : Commitment) (cs : Option Commitment) :
    Decidable (commitmentMatch c cs) := by
  unfold commitmentMatch; infer_instance

/-- Environment of one run of the unnamed-module Solana
`waitForConfirmation`: per loop iteration, the attempt outcomes of the
retried `getSignatureStatus` (its `.value`, `none` = null), the attempt
outcomes of the retried `getBlock` (resolving `none` models a null
block), and the iteration's RPC time on top of the 500 ms sleep.  At
most one `getBlock` call site runs per iteration, so one attempt family
per iteration suffices; the `commitment` hint passed to `getBlock` does
not affect the model since the environment already fixes the outcomes. -/
structure SolEnv : Type where
  sigStatusAttempts : Nat → Nat → Rpc (Option SigStatus)
  blockAttempts : Nat → Nat → Rpc (Option BlockInfo)
  rpcTime : Nat → Nat

/-- Result of a run of the unnamed-module Solana `waitForConfirmation`,
instrumented with the number of (retry-wrapped) `getSignatureStatus`
polls performed. -/
structure SolWaitResult : Type where
  outcome : Except WaitErr TransactionResult
  statusPolls : Nat
deriving DecidableEq, Repr

/-- The polling loop of `SolanaSDK.waitForConfirmation` in the unnamed
module (src/unnamed/part_000 lines 317-437).  Per iteration:
`getSignatureStatus` through `retry(·, 3, 1000)` (a rejection after
retries is caught, sleep 500 ms, continue); a null `value` sleeps and
continues; a truthy `value.err` throws `TransactionError`, which the
catch block rethrows; then the commitment-match branch (returning a
confirmed result when `slot` is truthy and the retried `getBlock`
resolves, its blockhash read with `?.`), then the independent
`maxConfirmations` branch (guarded by JS truthiness of both
`maxConfirmations` and `value.confirmations`); otherwise sleep 500 ms
and continue.  A `getBlock` rejection after retries is caught by the
outer catch and the loop continues. -/
def solWaitGo (env : SolEnv) (signature : String) (commitment : Commitment)
    (maxConfirmations : Option Nat) (timeoutMs : Nat) :
    (fuel : Nat) → (elapsed i polls : Nat) → SolWaitResult
  | 0, _, _, polls => ⟨.error (.timeout (timeoutMs / 1000) signature), polls⟩
  | fuel + 1, elapsed, i, polls =>
    if elapsed < timeoutMs then
      let step : Nat → SolWaitResult := fun polls' =>
        solWaitGo env signature commitment maxConfirmations timeoutMs fuel
          (elapsed + env.rpcTime i + 500) (i + 1) polls'
      match (retryModel (env.sigStatusAttempts i) 3 1000).outcome with
      | .error _ => step (polls + 1)
      | .ok none => step (polls + 1)
      | .ok (some st) =>
        if st.err.isSome then ⟨.error (.txFailed signature), polls + 1⟩
        else
          let maxConfBranch : SolWaitResult :=
            match maxConfirmations, st.confirmations with
            | some m, some c =>
              if m ≠ 0 ∧ c ≠ 0 then
                if c ≥ m then
                  if st.slot ≠ 0 then
                    match (retryModel (env.blockAttempts i) 3 1000).outcome with
                    | .error _ => step (polls + 1)
                    | .ok blockInfo =>
                      ⟨.ok { txHash := signature, status := .confirmed,
                             blockNumber := some st.slot,
                             blockHash := blockInfo.map BlockInfo.blockhash,
                             confirmations := some (c : Int) },
                       polls + 1⟩
                  else step (polls + 1)
                else step (polls + 1)
              else step (polls + 1)
            | _, _ => step (polls + 1)
          if commitmentMatch commitment st.confirmationStatus then
            if st.slot ≠ 0 then
              match (retryModel (env.blockAttempts i) 3 1000).outcome with
              | .error _ => step (polls + 1)
              | .ok blockInfo =>
                ⟨.ok { txHash := signature, status := .confirmed,
                       blockNumber := some st.slot,
                       blockHash := blockInfo.map BlockInfo.blockhash,
                       confirmations := some ((st.confirmations.getD 0 : Nat) : Int) },
                 polls + 1⟩
            else maxConfBranch
          else maxConfBranch
    else ⟨.error (.timeout (timeoutMs / 1000) signature), polls⟩

/-- Computation `timeout ? timeout * 1000 : 30000`: the Solana timeout in ms, 30 s
default (both versions). -/
def solTimeoutMs : Option Nat → Nat
  | some t => if t = 0 then 30000 else t * 1000
  | none => 30000

/-- Entry point `SolanaSDK.waitForConfirmation(signature, status, timeout,
maxConfirmations)` of the unnamed module. -/
def solWaitForConfirmation (env : SolEnv) (signature : String)
    (commitment : Commitment) (timeout : Option Nat)
    (maxConfirmations : Option Nat) : SolWaitResult :=
  solWaitGo env signature commitment maxConfirmations (solTimeoutMs timeout)
    (solTimeoutMs timeout) 0 0 0

/-- Environment of one run of packages/solana-sdk's
`waitForConfirmation`: there `getSignatureStatus` is called directly (not
through `retry`), so each iteration has a single outcome; `getBlock` is
still retried. -/
structure SolSimpleEnv : Type where
  sigStatus : Nat → Rpc (Option SigStatus)
  blockAttempts : Nat → Nat → Rpc (Option BlockInfo)
  rpcTime : Nat → Nat

/-- Result of a run of packages/solana-sdk's `waitForConfirmation` (it
never throws: chain failure and timeout come back as `failed` / `pending`
results), instrumented with the number of `getSignatureStatus` polls. -/
structure SolSimpleWaitResult : Type where
  result : TransactionResult
  statusPolls : Nat
deriving DecidableEq, Repr

/-- The polling loop of `SolanaSDK.waitForConfirmation` in
packages/solana-sdk/src/index.ts (lines 166-231).  Same branch structure
as the unnamed module's loop, except: `getSignatureStatus` is not
retried; a truthy `value.err` returns a `failed` result; any error is
caught (sleep 500 ms, continue); the elapsed deadline returns a `pending`
result instead of throwing. -/
def solSimpleWaitGo (env : SolSimpleEnv) (signature : String)
    (commitment : Commitment) (maxConfirmations : Option Nat)
    (timeoutMs : Nat) :
    (fuel : Nat) → (elapsed i polls : Nat) → SolSimpleWaitResult
  | 0, _, _, polls => ⟨{ txHash := signature, status := .pending }, polls⟩
  | fuel + 1, elapsed, i, polls =>
    if elapsed < timeoutMs then
      let step : Nat → SolSimpleWaitResult := fun polls' =>
        solSimpleWaitGo env signature commitment maxConfirmations timeoutMs
          fuel (elapsed + env.rpcTime i + 500) (i + 1) polls'
      match env.sigStatus i with
      | .error _ => step (polls + 1)
      | .ok none => step (polls + 1)
      | .ok (some st) =>
        if st.err.isSome then
          ⟨{ txHash := signature, status := .failed }, polls + 1⟩
        else
          let maxConfBranch : SolSimpleWaitResult :=
            match maxConfirmations, st.confirmations with
            | some m, some c =>
              if m ≠ 0 ∧ c ≠ 0 then
                if c ≥ m then
                  if st.slot ≠ 0 then
                    match (retryModel (env.blockAttempts i) 3 1000).outcome with
                    | .error _ => step (polls + 1)
                    | .ok blockInfo =>
                      ⟨{ txHash := signature, status := .confirmed,
                         blockNumber := some st.slot,
                         blockHash := blockInfo.map BlockInfo.blockhash,
                         confirmations := some (c : Int) },
                       polls + 1⟩
                  else step (polls + 1)
                else step (polls + 1)
              else step (polls + 1)
            | _, _ => step (polls + 1)
          if commitmentMatch commitment st.confirmationStatus then
            if st.slot ≠ 0 then
              match (retryModel (env.blockAttempts i) 3 1000).outcome with
              | .error _ => step (polls + 1)
              | .ok blockInfo =>
                ⟨{ txHash := signature, status := .confirmed,
                   blockNumber := some st.slot,
                   blockHash := blockInfo.map BlockInfo.blockhash,
                   confirmations := some ((st.confirmations.getD 0 : Nat) : Int) },
                 polls + 1⟩
            else maxConfBranch
          else maxConfBranch
    else ⟨{ txHash := signature, status := .pending }, polls⟩

/-- Entry point `SolanaSDK.waitForConfirmation` of packages/solana-sdk. -/
def solSimpleWaitForConfirmation (env : SolSimpleEnv) (signature : String)
    (commitment : Commitment) (timeout : Option Nat)
    (maxConfirmations : Option Nat) : SolSimpleWaitResult :=
  solSimpleWaitGo env signature commitment maxConfirmations
    (solTimeoutMs timeout) (solTimeoutMs timeout) 0 0 0

/-! ### Helper lemmas about the retry helper -/

/-- A run of the retry loop makes at most `remaining` further calls. -/
lemma retryGo_calls_le (a : Nat → Rpc α) (d : Nat) :
    ∀ remaining i last, (retryGo a d remaining i last).calls ≤ i + remaining := by
  intro remaining
  induction remaining with
  | zero => intro i last; simp [retryGo]
  | succ n ih =>
    intro i last
    simp only [retryGo]
    cases h : a i with
    | ok v => simp
    | error e =>
      by_cases hn : n = 0
      · subst hn; simp
      · dsimp only
        rw [if_neg hn]
        have := ih (i + 1) (some e)
        dsimp only
        omega

/-- If the `k`-th attempt (counting from the current index `i`) succeeds
after `k` failures, the retry loop returns that attempt's value after
exactly `i + k + 1` calls, having slept `delay * (attempt index + 1)`
between consecutive attempts. -/
lemma retryGo_success (a : Nat → Rpc α) (d : Nat) (v : α) :
    ∀ k remaining i last, k < remaining →
      (∀ j, j < k → ∃ e, a (i + j) = .error e) →
      a (i + k) = .ok v →
      retryGo a d remaining i last =
        ⟨.ok v, i + k + 1, (List.range k).map (fun j => d * (i + j + 1))⟩ := by
  intro k
  induction k with
  | zero =>
    intro remaining i last hlt _ hk
    obtain ⟨n, rfl⟩ : ∃ n, remaining = n + 1 := ⟨remaining - 1, by omega⟩
    simp only [retryGo]
    rw [show a i = .ok v from by simpa using hk]
    simp
  | succ k ih =>
    intro remaining i last hlt hfail hk
    obtain ⟨n, rfl⟩ : ∃ n, remaining = n + 1 := ⟨remaining - 1, by omega⟩
    obtain ⟨e, he⟩ := hfail 0 (by omega)
    have hn : n ≠ 0 := by omega
    simp only [retryGo]
    rw [show a i = .error e from by simpa using he]
    dsimp only
    rw [if_neg hn]
    rw [ih n (i + 1) (some e) (by omega)
      (fun j hj => by
        obtain ⟨e', he'⟩ := hfail (j + 1) (by omega)
        exact ⟨e', by rw [show i + 1 + j = i + (j + 1) by omega]; exact he'⟩)
      (by rw [show i + 1 + k = i + (k + 1) by omega]; exact hk)]
    have hrange : (List.range (k + 1)).map (fun j => d * (i + j + 1)) =
        d * (i + 1) :: (List.range k).map (fun j => d * (i + 1 + j + 1)) := by
      rw [List.range_succ_eq_map]
      simp only [List.map_cons, List.map_map, Function.comp_def]
      refine congrArg₂ _ (by norm_num) (List.map_congr_left ?_)
      intro j _
      congr 1
      omega
    rw [hrange]
    simp only [RetryResult.mk.injEq, true_and, and_true]
    omega

/-- If every remaining attempt fails, the retry loop throws the error of
the final attempt after exactly `remaining` further calls. -/
lemma retryGo_allfail (a : Nat → Rpc α) (d : Nat) (e : Nat → String) :
    ∀ remaining, 1 ≤ remaining → ∀ i last,
      (∀ j, j < remaining → a (i + j) = .error (e (i + j))) →
      retryGo a d remaining i last =
        ⟨.error (some (e (i + remaining - 1))), i + remaining,
         (List.range (remaining - 1)).map (fun j => d * (i + j + 1))⟩ := by
  intro remaining
  induction remaining with
  | zero => intro h; omega
  | succ n ih =>
    intro _ i last hfail
    simp only [retryGo]
    rw [show a i = .error (e i) from by simpa using hfail 0 (by omega)]
    by_cases hn : n = 0
    · subst hn
      simp
    · dsimp only
      rw [if_neg hn]
      rw [ih (by omega) (i + 1) (some (e i))
        (fun j hj => by
          rw [show i + 1 + j = i + (j + 1) by omega]
          exact hfail (j + 1) (by omega))]
      obtain ⟨m, rfl⟩ : ∃ m, n = m + 1 := ⟨n - 1, by omega⟩
      have hrange : (List.range (m + 1)).map (fun j => d * (i + j + 1)) =
          d * (i + 1) :: (List.range m).map (fun j => d * (i + 1 + j + 1)) := by
        rw [List.range_succ_eq_map]
        simp only [List.map_cons, List.map_map, Function.comp_def]
        refine congrArg₂ _ (by norm_num) (List.map_congr_left ?_)
        intro j _
        congr 1
        omega
      simp only [Nat.add_sub_cancel]
      rw [hrange]
      simp only [RetryResult.mk.injEq, true_and, and_true]
      constructor
      · congr 3
        omega
      · omega

/-- Any value returned by the retry loop was produced by some attempt. -/
lemma retryGo_outcome_ok (a : Nat → Rpc α) (d : Nat) (v : α) :
    ∀ remaining i last, (retryGo a d remaining i last).outcome = .ok v →
      ∃ k, a k = .ok v := by
  intro remaining
  induction remaining with
  | zero => intro i last h; simp [retryGo] at h
  | succ n ih =>
    intro i last h
    simp only [retryGo] at h
    cases hp : a i with
    | ok w =>
      rw [hp] at h
      simp at h
      exact ⟨i, by rw [hp, h]⟩
    | error e =>
      rw [hp] at h
      by_cases hn : n = 0
      · subst hn; simp at h
      · dsimp only at h
        rw [if_neg hn] at h
        exact ih (i + 1) (some e) h

/-! ### Claim C4: the retry contract -/

/-- Claim C4: for every operation, every `maxAttempts ≥ 1` and every
`baseDelay`, `retry` invokes the operation at most `maxAttempts` times;
if attempt `k` succeeds it returns that attempt's value after exactly
`k + 1` invocations; between a failed attempt `j` and the next attempt it
requests a sleep of `baseDelay * (j + 1)` (linear backoff, listed in
`sleeps`); and after `maxAttempts` consecutive failures it propagates the
error of the final attempt. -/
theorem C4_retry_contract {α : Type} (a : Nat → Rpc α) (maxRetries d : Nat)
    (hmax : 1 ≤ maxRetries) :
    (retryModel a maxRetries d).calls ≤ maxRetries ∧
    (∀ k v, k < maxRetries → (∀ j, j < k → ∃ e, a j = .error e) → a k = .ok v →
      retryModel a maxRetries d =
        ⟨.ok v, k + 1, (List.range k).map (fun j => d * (j + 1))⟩) ∧
    (∀ e : Nat → String, (∀ j, j < maxRetries → a j = .error (e j)) →
      retryModel a maxRetries d =
        ⟨.error (some (e (maxRetries - 1))), maxRetries,
         (List.range (maxRetries - 1)).map (fun j => d * (j + 1))⟩) := by
  refine ⟨?_, ?_, ?_⟩
  · simpa using retryGo_calls_le a d maxRetries 0 none
  · intro k v hk hfail hsucc
    have h := retryGo_success a d v k maxRetries 0 none hk
      (fun j hj => by simpa using hfail j hj) (by simpa using hsucc)
    simpa using h
  · intro e hfail
    have h := retryGo_allfail a d e maxRetries hmax 0 none
      (fun j hj => by simpa using hfail j hj)
    simpa using h

/-- An operation that fails on its first two attempts and succeeds on the
third, used to witness the retry contract. -/
def c4Attempts : Nat → Rpc Nat := fun j => if j < 2 then .error "boom" else .ok 37

/-- Witness for `C4_retry_contract`: the operation failing twice then
succeeding is retried with linear backoff sleeps of 1000 and 2000 ms. -/
theorem C4_retry_contract_witness :
    1 ≤ 3 ∧ (retryModel c4Attempts 3 1000).calls ≤ 3 ∧
      retryModel c4Attempts 3 1000 = ⟨.ok 37, 3, [1000, 2000]⟩ := by
  have h := C4_retry_contract c4Attempts 3 1000 (by decide)
  refine ⟨by decide, h.1, ?_⟩
  have hs := h.2.1 2 37 (by decide)
    (fun j hj => ⟨"boom", by simp only [c4Attempts]; rw [if_pos hj]⟩)
    (by simp [c4Attempts])
  simpa using hs

/-! ### Claim C9: retry with zero attempts -/

/-- Claim C9: for `maxRetries = 0` the retry helper never invokes the
operation (`calls = 0`) and the final `throw lastError!` throws the
never-assigned `lastError`, modelled as `Except.error none` (a thrown
`undefined`), not any last-seen error. -/
theorem C9_retry_zero_attempts {α : Type} (a : Nat → Rpc α) (d : Nat) :
    retryModel a 0 d = ⟨.error none, 0, []⟩ := rfl

/-! ### Invariants of the polling loops -/

/-- Any `TransactionResult` returned (rather than thrown) by the EVM loop
is a `confirmed` result with `blockNumber`, `blockHash` and
`confirmations` populated; in particular no `pending` result is ever
returned. -/
lemma evm_ok_confirmed (env : EvmEnv) (tx : String) (mc : Int) (tms : Nat) :
    ∀ fuel elapsed i polls bc r,
      (evmWaitGo env tx mc tms fuel elapsed i polls bc).outcome = .ok r →
      r.status = .confirmed ∧ r.blockNumber.isSome ∧ r.blockHash.isSome ∧
        r.confirmations.isSome := by
  intro fuel
  induction fuel with
  | zero => intro elapsed i polls bc r h; simp [evmWaitGo] at h
  | succ n ih =>
    intro elapsed i polls bc r h
    simp only [evmWaitGo] at h
    by_cases he : elapsed < tms
    · rw [if_pos he] at h
      cases hr : (retryModel (env.receiptAttempts i) 3 1000).outcome with
      | error e => rw [hr] at h; exact ih _ _ _ _ _ h
      | ok o =>
        rw [hr] at h
        cases o with
        | none => exact ih _ _ _ _ _ h
        | some receipt =>
          dsimp only at h
          by_cases hmc : mc > 1
          · rw [if_pos hmc] at h
            cases hcb : env.currentBlock i with
            | error e => rw [hcb] at h; exact ih _ _ _ _ _ h
            | ok cb =>
              rw [hcb] at h
              dsimp only at h
              by_cases hconf : (cb : Int) - (receipt.blockNumber : Int) + 1 ≥ mc
              · rw [if_pos hconf] at h
                by_cases h0 : receipt.statusCode = 0
                · rw [if_pos h0] at h; simp at h
                · rw [if_neg h0] at h
                  simp only [Except.ok.injEq] at h
                  subst h
                  simp
              · rw [if_neg hconf] at h; exact ih _ _ _ _ _ h
          · rw [if_neg hmc] at h
            by_cases h0 : receipt.statusCode = 0
            · rw [if_pos h0] at h; simp at h
            · rw [if_neg h0] at h
              simp only [Except.ok.injEq] at h
              subst h
              simp
    · rw [if_neg he] at h; simp at h

/-- Any `TransactionResult` returned by the unnamed-module Solana loop is
a `confirmed` result for the requested signature with `blockNumber` and
`confirmations` populated (`blockHash`, read with `?.` from a nullable
block, can be absent). -/
lemma sol_ok_shape (env : SolEnv) (sig : String) (c : Commitment)
    (mcs : Option Nat) (tms : Nat) :
    ∀ fuel elapsed i polls r,
      (solWaitGo env sig c mcs tms fuel elapsed i polls).outcome = .ok r →
      r.txHash = sig ∧ r.status = .confirmed ∧ r.blockNumber.isSome ∧
        r.confirmations.isSome := by
  intro fuel
  induction fuel with
  | zero => intro elapsed i polls r h; simp [solWaitGo] at h
  | succ n ih =>
    intro elapsed i polls r h
    simp only [solWaitGo] at h
    split at h
    · repeat' split at h
      all_goals first
        | (exact ih _ _ _ _ h)
        | (simp only [Except.ok.injEq] at h; subst h; simp)
        | (simp at h)
    · simp at h

/-- Any value returned by `retry` was produced by some attempt of the
wrapped operation. -/
lemma retryModel_outcome_ok (a : Nat → Rpc α) (maxR d : Nat) (v : α)
    (h : (retryModel a maxR d).outcome = .ok v) : ∃ k, a k = .ok v :=
  retryGo_outcome_ok a d v maxR 0 none h

/-- If no receipt the chain ever reports carries `status === 0`, the EVM
loop never throws `TransactionError`: transient RPC errors are absorbed,
never converted into a failure. -/
lemma evm_no_txFailed (env : EvmEnv) (tx : String) (mc : Int) (tms : Nat)
    (hclean : ∀ i k r, env.receiptAttempts i k = .ok (some r) → r.statusCode ≠ 0) :
    ∀ fuel elapsed i polls bc s,
      (evmWaitGo env tx mc tms fuel elapsed i polls bc).outcome ≠
        .error (.txFailed s) := by
  intro fuel
  induction fuel with
  | zero => intro elapsed i polls bc s h; simp [evmWaitGo] at h
  | succ n ih =>
    intro elapsed i polls bc s h
    simp only [evmWaitGo] at h
    by_cases he : elapsed < tms
    · rw [if_pos he] at h
      cases hr : (retryModel (env.receiptAttempts i) 3 1000).outcome with
      | error e => rw [hr] at h; exact ih _ _ _ _ _ h
      | ok o =>
        rw [hr] at h
        cases o with
        | none => exact ih _ _ _ _ _ h
        | some receipt =>
          dsimp only at h
          obtain ⟨k, hk⟩ := retryModel_outcome_ok _ _ _ _ hr
          have hnz : receipt.statusCode ≠ 0 := hclean i k receipt hk
          by_cases hmc : mc > 1
          · rw [if_pos hmc] at h
            cases hcb : env.currentBlock i with
            | error e => rw [hcb] at h; exact ih _ _ _ _ _ h
            | ok cb =>
              rw [hcb] at h
              dsimp only at h
              by_cases hconf : (cb : Int) - (receipt.blockNumber : Int) + 1 ≥ mc
              · rw [if_pos hconf, if_neg hnz] at h
                simp at h
              · rw [if_neg hconf] at h; exact ih _ _ _ _ _ h
          · rw [if_neg hmc, if_neg hnz] at h
            simp at h
    · rw [if_neg he] at h
      simp at h

/-- If no signature status the chain ever reports carries an `err`, the
unnamed-module Solana loop never throws `TransactionError`. -/
lemma sol_no_txFailed (env : SolEnv) (sig : String) (c : Commitment)
    (mcs : Option Nat) (tms : Nat)
    (hclean : ∀ i k st, env.sigStatusAttempts i k = .ok (some st) → st.err = none) :
    ∀ fuel elapsed i polls s,
      (solWaitGo env sig c mcs tms fuel elapsed i polls).outcome ≠
        .error (.txFailed s) := by
  intro fuel
  induction fuel with
  | zero => intro elapsed i polls s h; simp [solWaitGo] at h
  | succ n ih =>
    intro elapsed i polls s h
    simp only [solWaitGo] at h
    by_cases he : elapsed < tms
    · rw [if_pos he] at h
      cases hr : (retryModel (env.sigStatusAttempts i) 3 1000).outcome with
      | error e => rw [hr] at h; exact ih _ _ _ _ h
      | ok o =>
        rw [hr] at h
        cases o with
        | none => exact ih _ _ _ _ h
        | some st =>
          dsimp only at h
          obtain ⟨k, hk⟩ := retryModel_outcome_ok _ _ _ _ hr
          have herr : st.err = none := hclean i k st hk
          rw [if_neg (by simp [herr])] at h
          repeat' split at h
          all_goals first
            | (exact ih _ _ _ _ h)
            | (simp at h)
    · rw [if_neg he] at h
      simp at h

/-- With `maxConfirmations ≤ 1` the EVM loop never calls
`getBlockNumber`, and any confirmed result it returns reports exactly
`confirmations = 1`. -/
lemma evm_lowconf_invariant (env : EvmEnv) (tx : String) (mc : Int) (tms : Nat)
    (hmc : mc ≤ 1) :
    ∀ fuel elapsed i polls bc,
      (evmWaitGo env tx mc tms fuel elapsed i polls bc).blockNumberCalls = bc ∧
      (∀ r, (evmWaitGo env tx mc tms fuel elapsed i polls bc).outcome = .ok r →
        r.confirmations = some 1) := by
  intro fuel
  induction fuel with
  | zero => intro elapsed i polls bc; exact ⟨rfl, by intro r h; simp [evmWaitGo] at h⟩
  | succ n ih =>
    intro elapsed i polls bc
    have hnot : ¬(mc > 1) := by omega
    constructor
    · show (evmWaitGo env tx mc tms (n + 1) elapsed i polls bc).blockNumberCalls = bc
      simp only [evmWaitGo]
      by_cases he : elapsed < tms
      · rw [if_pos he]
        cases hr : (retryModel (env.receiptAttempts i) 3 1000).outcome with
        | error e => exact (ih _ _ _ _).1
        | ok o =>
          cases o with
          | none => exact (ih _ _ _ _).1
          | some receipt =>
            dsimp only
            rw [if_neg hnot]
            by_cases h0 : receipt.statusCode = 0
            · rw [if_pos h0]
            · rw [if_neg h0]
      · rw [if_neg he]
    · intro r h
      simp only [evmWaitGo] at h
      by_cases he : elapsed < tms
      · rw [if_pos he] at h
        cases hr : (retryModel (env.receiptAttempts i) 3 1000).outcome with
        | error e => rw [hr] at h; exact (ih _ _ _ _).2 r h
        | ok o =>
          rw [hr] at h
          cases o with
          | none => exact (ih _ _ _ _).2 r h
          | some receipt =>
            dsimp only at h
            rw [if_neg hnot] at h
            by_cases h0 : receipt.statusCode = 0
            · rw [if_pos h0] at h; simp at h
            · rw [if_neg h0] at h
              simp only [Except.ok.injEq] at h
              subst h
              rfl
      · rw [if_neg he] at h; simp at h

/-- With target commitment `finalized` and no `maxConfirmations`, the
unnamed-module Solana loop never returns a confirmed result unless some
poll reports `confirmationStatus = finalized`. -/
lemma sol_finalized_needs_finalized (env : SolEnv) (sig : String) (tms : Nat)
    (hnf : ∀ i st, (retryModel (env.sigStatusAttempts i) 3 1000).outcome = .ok (some st) →
      st.confirmationStatus ≠ some Commitment.finalized) :
    ∀ fuel elapsed i polls r,
      (solWaitGo env sig .finalized none tms fuel elapsed i polls).outcome ≠ .ok r := by
  intro fuel
  induction fuel with
  | zero => intro elapsed i polls r h; simp [solWaitGo] at h
  | succ n ih =>
    intro elapsed i polls r h
    simp only [solWaitGo] at h
    by_cases he : elapsed < tms
    · rw [if_pos he] at h
      cases hr : (retryModel (env.sigStatusAttempts i) 3 1000).outcome with
      | error e => rw [hr] at h; exact ih _ _ _ _ h
      | ok o =>
        rw [hr] at h
        cases o with
        | none => exact ih _ _ _ _ h
        | some st =>
          dsimp only at h
          have hnm : ¬ commitmentMatch Commitment.finalized st.confirmationStatus := by
            intro hm
            rcases hm with h1 | ⟨h2, _⟩
            · exact hnf i st hr h1
            · exact Commitment.noConfusion h2
          by_cases herr : st.err.isSome = true
          · rw [if_pos herr] at h; simp at h
          · rw [if_neg herr, if_neg hnm] at h
            exact ih _ _ _ _ h
    · rw [if_neg he] at h; simp at h

/-- Any result of the packages/solana-sdk loop whose status is
`confirmed` has `blockNumber` and `confirmations` populated (`blockHash`,
read with `?.` from a nullable block, can be absent). -/
lemma solSimple_confirmed_shape (env : SolSimpleEnv) (sig : String) (c : Commitment)
    (mcs : Option Nat) (tms : Nat) :
    ∀ fuel elapsed i polls,
      (solSimpleWaitGo env sig c mcs tms fuel elapsed i polls).result.status =
        TxStatus.confirmed →
      (solSimpleWaitGo env sig c mcs tms fuel elapsed i polls).result.blockNumber.isSome ∧
      (solSimpleWaitGo env sig c mcs tms fuel elapsed i polls).result.confirmations.isSome := by
  intro fuel
  induction fuel with
  | zero => intro elapsed i polls h; simp [solSimpleWaitGo] at h
  | succ n ih =>
    intro elapsed i polls
    simp only [solSimpleWaitGo]
    split
    · repeat' split
      all_goals intro h
      all_goals first
        | (exact ih _ _ _ h)
        | (exact ⟨rfl, rfl⟩)
        | (simp at h)
    · intro h; simp at h

/-- With target commitment `finalized` and no `maxConfirmations`, the
packages/solana-sdk loop never returns a `confirmed` result unless some
poll reports `confirmationStatus = finalized`. -/
lemma solSimple_finalized_needs_finalized (env : SolSimpleEnv) (sig : String)
    (tms : Nat)
    (hnf : ∀ i st, env.sigStatus i = .ok (some st) →
      st.confirmationStatus ≠ some Commitment.finalized) :
    ∀ fuel elapsed i polls,
      (solSimpleWaitGo env sig .finalized none tms fuel elapsed i polls).result.status ≠
        TxStatus.confirmed := by
  intro fuel
  induction fuel with
  | zero => intro elapsed i polls h; simp [solSimpleWaitGo] at h
  | succ n ih =>
    intro elapsed i polls h
    simp only [solSimpleWaitGo] at h
    by_cases he : elapsed < tms
    · rw [if_pos he] at h
      cases hr : env.sigStatus i with
      | error e => rw [hr] at h; exact ih _ _ _ h
      | ok o =>
        rw [hr] at h
        cases o with
        | none => exact ih _ _ _ h
        | some st =>
          dsimp only at h
          have hnm : ¬ commitmentMatch Commitment.finalized st.confirmationStatus := by
            intro hm
            rcases hm with h1 | ⟨h2, _⟩
            · exact hnf i st hr h1
            · exact Commitment.noConfusion h2
          by_cases herr : st.err.isSome = true
          · rw [if_pos herr] at h
            simp at h
          · rw [if_neg herr, if_neg hnm] at h
            exact ih _ _ _ h
    · rw [if_neg he] at h
      simp at h

/-- The unnamed-module Solana loop depends on the `getSignatureStatus`
attempt outcomes only through the outcome of the surrounding `retry`
call: two environments whose retried outcomes agree pointwise (and whose
block fetches and RPC times agree) produce identical runs. -/
lemma solWaitGo_congr (envA envB : SolEnv) (sig : String) (c : Commitment)
    (mcs : Option Nat) (tms : Nat)
    (hsig : ∀ i, (retryModel (envA.sigStatusAttempts i) 3 1000).outcome =
                 (retryModel (envB.sigStatusAttempts i) 3 1000).outcome)
    (hblk : ∀ i, (retryModel (envA.blockAttempts i) 3 1000).outcome =
                 (retryModel (envB.blockAttempts i) 3 1000).outcome)
    (ht : ∀ i, envA.rpcTime i = envB.rpcTime i) :
    ∀ fuel elapsed i polls,
      solWaitGo envA sig c mcs tms fuel elapsed i polls =
      solWaitGo envB sig c mcs tms fuel elapsed i polls := by
  intro fuel
  induction fuel with
  | zero => intro elapsed i polls; rfl
  | succ n ih =>
    intro elapsed i polls
    simp only [solWaitGo, hsig i, hblk i, ht i]
    by_cases he : elapsed < tms
    · simp only [if_pos he]
      cases hB : (retryModel (envB.sigStatusAttempts i) 3 1000).outcome with
      | error e => exact ih _ _ _
      | ok o =>
        cases o with
        | none => exact ih _ _ _
        | some st =>
          dsimp only
          cases mcs <;> cases hc : st.confirmations <;>
            cases hBB : (retryModel (envB.blockAttempts i) 3 1000).outcome <;>
            dsimp only <;> split_ifs <;> first | rfl | exact ih _ _ _
    · simp only [if_neg he]

/-! ### Claim C1: chain-reported errors fail immediately -/

/-- Environment refuting claim C1 on the EVM path: every poll returns a
receipt with `status = 0` (chain-reported failure) mined at block 10
while the current block is still 10, so with `maxConfirmations = 2` the
computed confirmation count (1) never reaches the target and the
`receipt.status === 0` check is never executed. -/
def c1Env : EvmEnv :=
  { receiptAttempts := fun _ _ => .ok (some ⟨"0xabc", 10, "0xb", 0⟩),
    currentBlock := fun _ => .ok 10,
    rpcTime := fun _ => 0 }

/-- Claim C1 counterexample: with `maxConfirmations = 2` and a 5 s
timeout, every poll of the run carries a chain-reported error
(`status = 0`), yet the tracker does not fail at the first poll: it keeps
polling (3 `getStatus` polls) and ends in `TimeoutError`, not a terminal
`failed` outcome. -/
theorem C1_counterexample :
    (retryModel (c1Env.receiptAttempts 0) 3 1000).outcome =
      .ok (some ⟨"0xabc", 10, "0xb", 0⟩) ∧
    evmWaitForConfirmation c1Env "0xabc" 2 (some 5) =
      ⟨.error (.timeout 5 "0xabc"), 3, 3⟩ := ⟨rfl, rfl⟩

/-- Claim C1 (amended): a polled status carrying a chain-reported error
produces a terminal failed outcome immediately at that poll — with no
further `getStatus` polls (the poll counter stops at `polls + 1`) and
regardless of remaining timeout budget — in every case where the error
check is reached: on the EVM path when `maxConfirmations ≤ 1`, on the EVM
path when `maxConfirmations > 1` once the computed confirmation count
reaches the target, and on both Solana paths unconditionally.  (The EVM
path with `maxConfirmations > 1` and an insufficient confirmation count
does not check the error and keeps polling, per `C1_counterexample`.) -/
theorem C1_amended (envE : EvmEnv) (envS : SolEnv) (envP : SolSimpleEnv)
    (tx sig : String) (mc : Int) (mcs : Option Nat) (c : Commitment)
    (tms fuel elapsed i polls bc : Nat) (he : elapsed < tms) :
    (∀ r, (retryModel (envE.receiptAttempts i) 3 1000).outcome = .ok (some r) →
      r.statusCode = 0 → mc ≤ 1 →
      evmWaitGo envE tx mc tms (fuel + 1) elapsed i polls bc =
        ⟨.error (.txFailed tx), polls + 1, bc⟩) ∧
    (∀ r cb, (retryModel (envE.receiptAttempts i) 3 1000).outcome = .ok (some r) →
      r.statusCode = 0 → mc > 1 → envE.currentBlock i = .ok cb →
      (cb : Int) - (r.blockNumber : Int) + 1 ≥ mc →
      evmWaitGo envE tx mc tms (fuel + 1) elapsed i polls bc =
        ⟨.error (.txFailed tx), polls + 1, bc + 1⟩) ∧
    (∀ st, (retryModel (envS.sigStatusAttempts i) 3 1000).outcome = .ok (some st) →
      st.err.isSome = true →
      solWaitGo envS sig c mcs tms (fuel + 1) elapsed i polls =
        ⟨.error (.txFailed sig), polls + 1⟩) ∧
    (∀ st, envP.sigStatus i = .ok (some st) → st.err.isSome = true →
      solSimpleWaitGo envP sig c mcs tms (fuel + 1) elapsed i polls =
        ⟨{ txHash := sig, status := .failed }, polls + 1⟩) := by
  refine ⟨?_, ?_, ?_, ?_⟩
  · intro r hr h0 hmc
    simp only [evmWaitGo, if_pos he, hr]
    rw [if_neg (show ¬(mc > 1) by omega), if_pos h0]
  · intro r cb hr h0 hmc hcb hconf
    simp only [evmWaitGo, if_pos he, hr, hcb]
    rw [if_pos hmc]
    rw [if_pos hconf, if_pos h0]
  · intro st hst herr
    simp only [solWaitGo, if_pos he, hst]
    rw [if_pos herr]
  · intro st hst herr
    simp only [solSimpleWaitGo, if_pos he, hst]
    rw [if_pos herr]

def c1WEvmEnv : EvmEnv :=
  { receiptAttempts := fun _ _ => .ok (some ⟨"0xd", 7, "0xbh", 0⟩),
    currentBlock := fun _ => .ok 7,
    rpcTime := fun _ => 0 }

def c1WSolEnv : SolEnv :=
  { sigStatusAttempts := fun _ _ => .ok (some ⟨some "err", 4, some 1, some .confirmed⟩),
    blockAttempts := fun _ _ => .ok none,
    rpcTime := fun _ => 0 }

def c1WSolSimpleEnv : SolSimpleEnv :=
  { sigStatus := fun _ => .ok (some ⟨some "err", 4, some 1, some .confirmed⟩),
    blockAttempts := fun _ _ => .ok none,
    rpcTime := fun _ => 0 }

/-- Witness for `C1_amended` at concrete inputs: an errored EVM receipt
with `maxConfirmations = 1` throws `TransactionError` at the first poll,
and an errored Solana status fails at the first poll in both SDKs. -/
theorem C1_amended_witness :
    (0 : Nat) < 30000 ∧
    evmWaitGo c1WEvmEnv "0xd" 1 30000 1 0 0 0 0 = ⟨.error (.txFailed "0xd"), 1, 0⟩ ∧
    solWaitGo c1WSolEnv "sg" .confirmed none 30000 1 0 0 0 =
      ⟨.error (.txFailed "sg"), 1⟩ ∧
    solSimpleWaitGo c1WSolSimpleEnv "sg" .confirmed none 30000 1 0 0 0 =
      ⟨{ txHash := "sg", status := .failed }, 1⟩ := by
  have h := C1_amended c1WEvmEnv c1WSolEnv c1WSolSimpleEnv "0xd" "sg" 1 none
    .confirmed 30000 0 0 0 0 0 (by decide)
  refine ⟨by decide, ?_, ?_, ?_⟩
  · exact h.1 ⟨"0xd", 7, "0xbh", 0⟩ rfl rfl (by decide)
  · exact h.2.2.1 ⟨some "err", 4, some 1, some .confirmed⟩ rfl rfl
  · exact h.2.2.2 ⟨some "err", 4, some 1, some .confirmed⟩ rfl rfl

/-! ### Claim C2: deadline handling -/

/-- Environment refuting claim C2: `getSignatureStatus` always resolves
with a null `value`, so the packages/solana-sdk loop reaches its 1 s
deadline without a terminal outcome. -/
def c2Env : SolSimpleEnv :=
  { sigStatus := fun _ => .ok none,
    blockAttempts := fun _ _ => .ok none,
    rpcTime := fun _ => 0 }

/-- Claim C2 counterexample: when its deadline elapses, the
packages/solana-sdk `waitForConfirmation` does not signal a timeout
error — it returns a `TransactionResult` with status `pending`, exactly
what the claim rules out. -/
theorem C2_counterexample :
    (solSimpleWaitForConfirmation c2Env "sig" .confirmed (some 1) none).result =
      { txHash := "sig", status := .pending } := rfl

/-- Claim C2 (amended): when the polling deadline elapses without a
terminal outcome, the EVM tracker and the unnamed-module Solana tracker
throw a single `TimeoutError` carrying `timeoutMs / 1000` and the handle,
and neither ever returns a `pending` result (every returned result is
`confirmed`); the packages/solana-sdk tracker instead returns a
`TransactionResult` with status `pending` on timeout. -/
theorem C2_amended (envE : EvmEnv) (envS : SolEnv) (envP : SolSimpleEnv)
    (tx sig : String) (mc : Int) (mcs : Option Nat) (c : Commitment)
    (tms fuel elapsed i polls bc : Nat) (he : ¬ elapsed < tms) :
    (evmWaitGo envE tx mc tms (fuel + 1) elapsed i polls bc =
      ⟨.error (.timeout (tms / 1000) tx), polls, bc⟩) ∧
    (∀ fuel' elapsed' i' polls' bc' r,
      (evmWaitGo envE tx mc tms fuel' elapsed' i' polls' bc').outcome = .ok r →
      r.status = .confirmed) ∧
    (solWaitGo envS sig c mcs tms (fuel + 1) elapsed i polls =
      ⟨.error (.timeout (tms / 1000) sig), polls⟩) ∧
    (∀ fuel' elapsed' i' polls' r,
      (solWaitGo envS sig c mcs tms fuel' elapsed' i' polls').outcome = .ok r →
      r.status = .confirmed) ∧
    ((solSimpleWaitGo envP sig c mcs tms (fuel + 1) elapsed i polls).result =
      { txHash := sig, status := .pending }) := by
  refine ⟨?_, ?_, ?_, ?_, ?_⟩
  · simp only [evmWaitGo, if_neg he]
  · intro fuel' elapsed' i' polls' bc' r h
    exact (evm_ok_confirmed envE tx mc tms fuel' elapsed' i' polls' bc' r h).1
  · simp only [solWaitGo, if_neg he]
  · intro fuel' elapsed' i' polls' r h
    exact (sol_ok_shape envS sig c mcs tms fuel' elapsed' i' polls' r h).2.1
  · simp only [solSimpleWaitGo, if_neg he]

def c2WEvmEnv : EvmEnv :=
  { receiptAttempts := fun _ _ => .ok none,
    currentBlock := fun _ => .ok 0,
    rpcTime := fun _ => 0 }

def c2WSolEnv : SolEnv :=
  { sigStatusAttempts := fun _ _ => .ok none,
    blockAttempts := fun _ _ => .ok none,
    rpcTime := fun _ => 0 }

/-- Witness for `C2_amended` at concrete inputs with the deadline
already elapsed (`elapsed = timeoutMs = 1000`). -/
theorem C2_amended_witness :
    ¬((1000 : Nat) < 1000) ∧
    evmWaitGo c2WEvmEnv "0x2" 1 1000 1 1000 0 0 0 =
      ⟨.error (.timeout 1 "0x2"), 0, 0⟩ ∧
    solWaitGo c2WSolEnv "sg" .confirmed none 1000 1 1000 0 0 =
      ⟨.error (.timeout 1 "sg"), 0⟩ ∧
    (solSimpleWaitGo c2Env "sg" .confirmed none 1000 1 1000 0 0).result =
      { txHash := "sg", status := .pending } := by
  have h := C2_amended c2WEvmEnv c2WSolEnv c2Env "0x2" "sg" 1 none .confirmed
    1000 0 1000 0 0 0 (by decide)
  exact ⟨by decide, h.1, h.2.2.1, h.2.2.2.2⟩

/-! ### Claim C3: commitment-level subsumption -/

/-- Environment refuting claim C3's universal quantification over
`maxConfirmations`: every poll reports `confirmationStatus = confirmed`
with 3 confirmations at slot 5, and `getBlock` succeeds. -/
def c3Env : SolEnv :=
  { sigStatusAttempts := fun _ _ => .ok (some ⟨none, 5, some 3, some .confirmed⟩),
    blockAttempts := fun _ _ => .ok (some ⟨"bh"⟩),
    rpcTime := fun _ => 0 }

/-- Claim C3 counterexample: requesting commitment `finalized` with
`maxConfirmations = 1` terminates as `confirmed` on the first poll even
though every reported commitment level is only `confirmed` — the
independent `maxConfirmations` branch fires, so the claimed "never
terminates" fails for that value of the optional parameter. -/
theorem C3_counterexample :
    (∀ i k st, c3Env.sigStatusAttempts i k = .ok (some st) →
      st.confirmationStatus = some Commitment.confirmed) ∧
    (solWaitForConfirmation c3Env "sig" .finalized (some 5) (some 1)).outcome =
      .ok { txHash := "sig", status := .confirmed, blockNumber := some 5,
            blockHash := some "bh", confirmations := some 3 } := by
  constructor
  · intro i k st h
    simp only [c3Env] at h
    cases h
    rfl
  · rfl

/-- Claim C3 (amended), covering both Solana implementations: with
`maxConfirmations` unset, a `finalized` request never terminates as
confirmed when no poll ever reports level `finalized` (a
`confirmed`-only report never satisfies it); conversely a `confirmed`
request does terminate as confirmed, for any `maxConfirmations`, on a
poll reporting level `finalized` (one-way subsumption), provided the
status carries no error, a truthy slot, and the block fetch resolves.
The first two conjuncts state this for the unnamed module's loop, the
last two for packages/solana-sdk's loop, whose subsumption condition is
identical.  (With `maxConfirmations` set, the separate
confirmation-count branch can confirm a `finalized` request on a
`confirmed`-only report, per `C3_counterexample`.) -/
theorem C3_amended (envA envB : SolEnv) (envC envD : SolSimpleEnv)
    (sig : String) (mcs : Option Nat) (tms : Nat) :
    ((∀ i st, (retryModel (envA.sigStatusAttempts i) 3 1000).outcome = .ok (some st) →
        st.confirmationStatus ≠ some Commitment.finalized) →
      ∀ fuel elapsed i polls r,
        (solWaitGo envA sig .finalized none tms fuel elapsed i polls).outcome ≠
          .ok r) ∧
    (∀ fuel elapsed i polls st b, elapsed < tms →
      (retryModel (envB.sigStatusAttempts i) 3 1000).outcome = .ok (some st) →
      st.err.isSome = false →
      st.confirmationStatus = some Commitment.finalized →
      st.slot ≠ 0 →
      (retryModel (envB.blockAttempts i) 3 1000).outcome = .ok b →
      solWaitGo envB sig .confirmed mcs tms (fuel + 1) elapsed i polls =
        ⟨.ok { txHash := sig, status := .confirmed, blockNumber := some st.slot,
               blockHash := b.map BlockInfo.blockhash,
               confirmations := some ((st.confirmations.getD 0 : Nat) : Int) },
         polls + 1⟩) ∧
    ((∀ i st, envC.sigStatus i = .ok (some st) →
        st.confirmationStatus ≠ some Commitment.finalized) →
      ∀ fuel elapsed i polls,
        (solSimpleWaitGo envC sig .finalized none tms fuel elapsed i polls).result.status ≠
          TxStatus.confirmed) ∧
    (∀ fuel elapsed i polls st b, elapsed < tms →
      envD.sigStatus i = .ok (some st) →
      st.err.isSome = false →
      st.confirmationStatus = some Commitment.finalized →
      st.slot ≠ 0 →
      (retryModel (envD.blockAttempts i) 3 1000).outcome = .ok b →
      solSimpleWaitGo envD sig .confirmed mcs tms (fuel + 1) elapsed i polls =
        ⟨{ txHash := sig, status := .confirmed, blockNumber := some st.slot,
           blockHash := b.map BlockInfo.blockhash,
           confirmations := some ((st.confirmations.getD 0 : Nat) : Int) },
         polls + 1⟩) := by
  refine ⟨?_, ?_, ?_, ?_⟩
  · intro hnf
    exact sol_finalized_needs_finalized envA sig tms hnf
  · intro fuel elapsed i polls st b he hst herr hcs hslot hb
    simp only [solWaitGo, if_pos he, hst]
    rw [if_neg (by simp [herr])]
    have hm : commitmentMatch Commitment.confirmed st.confirmationStatus :=
      Or.inr ⟨rfl, hcs⟩
    rw [if_pos hm, if_pos hslot]
    simp only [hb]
  · intro hnf
    exact solSimple_finalized_needs_finalized envC sig tms hnf
  · intro fuel elapsed i polls st b he hst herr hcs hslot hb
    simp only [solSimpleWaitGo, if_pos he, hst]
    rw [if_neg (by simp [herr])]
    have hm : commitmentMatch Commitment.confirmed st.confirmationStatus :=
      Or.inr ⟨rfl, hcs⟩
    rw [if_pos hm, if_pos hslot]
    simp only [hb]

def c3WEnv : SolEnv :=
  { sigStatusAttempts := fun _ _ => .ok (some ⟨none, 9, some 2, some .finalized⟩),
    blockAttempts := fun _ _ => .ok (some ⟨"fh"⟩),
    rpcTime := fun _ => 0 }

/-- Packages/solana-sdk analogue of `c3Env`: every poll reports
commitment level `confirmed` only. -/
def c3SimpleEnv : SolSimpleEnv :=
  { sigStatus := fun _ => .ok (some ⟨none, 5, some 3, some .confirmed⟩),
    blockAttempts := fun _ _ => .ok (some ⟨"bh"⟩),
    rpcTime := fun _ => 0 }

/-- Packages/solana-sdk analogue of `c3WEnv`: every poll reports
commitment level `finalized`. -/
def c3WSimpleEnv : SolSimpleEnv :=
  { sigStatus := fun _ => .ok (some ⟨none, 9, some 2, some .finalized⟩),
    blockAttempts := fun _ _ => .ok (some ⟨"fh"⟩),
    rpcTime := fun _ => 0 }

/-- Witness for `C3_amended` at concrete inputs: the confirmed-only
environments never confirm a `finalized` request once the
`maxConfirmations` branch is disabled, and a `finalized` report confirms
a `confirmed` request at the first poll, in both Solana
implementations. -/
theorem C3_amended_witness :
    (∀ i k st, c3Env.sigStatusAttempts i k = .ok (some st) →
      st.confirmationStatus ≠ some Commitment.finalized) ∧
    (solWaitGo c3Env "sig" .finalized none 5000 3 0 0 0).outcome ≠
      .ok { txHash := "sig", status := .confirmed, blockNumber := some 5,
            blockHash := some "bh", confirmations := some 3 } ∧
    solWaitGo c3WEnv "sig" .confirmed (some 7) 5000 1 0 0 0 =
      ⟨.ok { txHash := "sig", status := .confirmed, blockNumber := some 9,
             blockHash := some "fh", confirmations := some 2 }, 1⟩ ∧
    (solSimpleWaitGo c3SimpleEnv "sig" .finalized none 5000 3 0 0 0).result.status ≠
      TxStatus.confirmed ∧
    solSimpleWaitGo c3WSimpleEnv "sig" .confirmed (some 7) 5000 1 0 0 0 =
      ⟨{ txHash := "sig", status := .confirmed, blockNumber := some 9,
         blockHash := some "fh", confirmations := some 2 }, 1⟩ := by
  have h := C3_amended c3Env c3WEnv c3SimpleEnv c3WSimpleEnv "sig" (some 7) 5000
  have hnf : ∀ i st,
      (retryModel (c3Env.sigStatusAttempts i) 3 1000).outcome = .ok (some st) →
      st.confirmationStatus ≠ some Commitment.finalized := by
    intro i st hst
    have h0 : (retryModel (c3Env.sigStatusAttempts i) 3 1000).outcome
        = .ok (some (⟨none, 5, some 3, some .confirmed⟩ : SigStatus)) := rfl
    rw [h0] at hst
    simp only [Except.ok.injEq, Option.some.injEq] at hst
    subst hst
    decide
  have hnfC : ∀ i st, c3SimpleEnv.sigStatus i = .ok (some st) →
      st.confirmationStatus ≠ some Commitment.finalized := by
    intro i st hst
    have h0 : c3SimpleEnv.sigStatus i
        = .ok (some (⟨none, 5, some 3, some .confirmed⟩ : SigStatus)) := rfl
    rw [h0] at hst
    simp only [Except.ok.injEq, Option.some.injEq] at hst
    subst hst
    decide
  refine ⟨?_, h.1 hnf 3 0 0 0 _, ?_, h.2.2.1 hnfC 3 0 0 0, ?_⟩
  · intro i k st hst
    have : st = ⟨none, 5, some 3, some .confirmed⟩ := by
      simp only [c3Env] at hst
      cases hst
      rfl
    subst this
    decide
  · exact h.2.1 0 0 0 0 ⟨none, 9, some 2, some .finalized⟩ (some ⟨"fh"⟩)
      (by decide) rfl rfl rfl (by decide) rfl
  · exact h.2.2.2 0 0 0 0 ⟨none, 9, some 2, some .finalized⟩ (some ⟨"fh"⟩)
      (by decide) rfl rfl rfl (by decide) rfl

/-! ### Claim C5: single-confirmation EVM fast path -/

/-- Claim C5: with confirmation-count target 1, the first poll whose
retried `getTransactionReceipt` resolves with a receipt carrying no
chain error (`status !== 0`) returns a `confirmed` result at that same
poll (the poll counter stops at `polls + 1`), with `txHash`,
`blockNumber`, `blockHash` and `confirmations` populated. -/
theorem C5_evm_single_confirmation (env : EvmEnv) (tx : String)
    (tms fuel elapsed i polls bc : Nat) (r : Receipt)
    (he : elapsed < tms)
    (hr : (retryModel (env.receiptAttempts i) 3 1000).outcome = .ok (some r))
    (hs : r.statusCode ≠ 0) :
    evmWaitGo env tx 1 tms (fuel + 1) elapsed i polls bc =
      ⟨.ok { txHash := r.hash, status := .confirmed,
             blockNumber := some r.blockNumber, blockHash := some r.blockHash,
             confirmations := some 1 }, polls + 1, bc⟩ := by
  simp only [evmWaitGo, if_pos he, hr]
  rw [if_neg (show ¬((1 : Int) > 1) by norm_num), if_neg hs]

/-- Environment for the `C5` witness: a successful receipt
(`status = 1`) at block 42 on every poll. -/
def c5Env : EvmEnv :=
  { receiptAttempts := fun _ _ => .ok (some ⟨"0x5", 42, "0xb5", 1⟩),
    currentBlock := fun _ => .ok 42,
    rpcTime := fun _ => 0 }

/-- Witness for `C5_evm_single_confirmation` at a concrete
environment: the first poll returns the confirmed result. -/
theorem C5_evm_single_confirmation_witness :
    ((0 : Nat) < 60000 ∧
      (retryModel (c5Env.receiptAttempts 0) 3 1000).outcome =
        .ok (some ⟨"0x5", 42, "0xb5", 1⟩) ∧ (1 : Nat) ≠ 0) ∧
    evmWaitGo c5Env "0x5" 1 60000 1 0 0 0 0 =
      ⟨.ok { txHash := "0x5", status := .confirmed, blockNumber := some 42,
             blockHash := some "0xb5", confirmations := some 1 }, 1, 0⟩ := by
  refine ⟨⟨by decide, rfl, by decide⟩, ?_⟩
  exact C5_evm_single_confirmation c5Env "0x5" 60000 0 0 0 0 0
    ⟨"0x5", 42, "0xb5", 1⟩ (by decide) rfl (by decide)

/-! ### Claim C6: propagation policy -/

/-- Claim C6: the only error conditions that escape a tracker are the
chain-reported failure and the timeout (the `WaitErr` type has exactly
those two constructors); a transient failure of the retried `getStatus`
call is absorbed — the loop continues with the next iteration after the
inter-poll delay (2000 ms EVM, 500 ms Solana) — and if the chain never
reports a transaction error, no `TransactionError` ever escapes, on both
the EVM and the unnamed-module Solana paths. -/
theorem C6_error_propagation (envE : EvmEnv) (envS : SolEnv) (tx sig : String)
    (mc : Int) (mcs : Option Nat) (c : Commitment) (tms : Nat) :
    (∀ fuel elapsed i polls bc e, elapsed < tms →
      (retryModel (envE.receiptAttempts i) 3 1000).outcome = .error e →
      evmWaitGo envE tx mc tms (fuel + 1) elapsed i polls bc =
        evmWaitGo envE tx mc tms fuel (elapsed + envE.rpcTime i + 2000) (i + 1)
          (polls + 1) bc) ∧
    ((∀ i k r, envE.receiptAttempts i k = .ok (some r) → r.statusCode ≠ 0) →
      ∀ fuel elapsed i polls bc s,
        (evmWaitGo envE tx mc tms fuel elapsed i polls bc).outcome ≠
          .error (.txFailed s)) ∧
    (∀ fuel elapsed i polls e, elapsed < tms →
      (retryModel (envS.sigStatusAttempts i) 3 1000).outcome = .error e →
      solWaitGo envS sig c mcs tms (fuel + 1) elapsed i polls =
        solWaitGo envS sig c mcs tms fuel (elapsed + envS.rpcTime i + 500) (i + 1)
          (polls + 1)) ∧
    ((∀ i k st, envS.sigStatusAttempts i k = .ok (some st) → st.err = none) →
      ∀ fuel elapsed i polls s,
        (solWaitGo envS sig c mcs tms fuel elapsed i polls).outcome ≠
          .error (.txFailed s)) := by
  refine ⟨?_, ?_, ?_, ?_⟩
  · intro fuel elapsed i polls bc e he herr
    simp only [evmWaitGo, if_pos he, herr]
  · intro hclean fuel elapsed i polls bc s
    exact evm_no_txFailed envE tx mc tms hclean fuel elapsed i polls bc s
  · intro fuel elapsed i polls e he herr
    simp only [solWaitGo, if_pos he, herr]
  · intro hclean fuel elapsed i polls s
    exact sol_no_txFailed envS sig c mcs tms hclean fuel elapsed i polls s

/-- Environment for the `C6` witness: every RPC call rejects. -/
def c6EvmEnv : EvmEnv :=
  { receiptAttempts := fun _ _ => .error "rpc down",
    currentBlock := fun _ => .error "rpc down",
    rpcTime := fun _ => 0 }

def c6SolEnv : SolEnv :=
  { sigStatusAttempts := fun _ _ => .error "rpc down",
    blockAttempts := fun _ _ => .error "rpc down",
    rpcTime := fun _ => 0 }

/-- Witness for `C6_error_propagation` on environments whose every RPC
call rejects: each poll continues the loop, and no `TransactionError`
escapes. -/
theorem C6_error_propagation_witness :
    (0 : Nat) < 1000 ∧
    evmWaitGo c6EvmEnv "0x6" 1 1000 3 0 0 0 0 =
      evmWaitGo c6EvmEnv "0x6" 1 1000 2 2000 1 1 0 ∧
    (evmWaitGo c6EvmEnv "0x6" 1 1000 3 0 0 0 0).outcome ≠
      .error (.txFailed "0x6") ∧
    solWaitGo c6SolEnv "s6" .confirmed none 1000 3 0 0 0 =
      solWaitGo c6SolEnv "s6" .confirmed none 1000 2 500 1 1 ∧
    (solWaitGo c6SolEnv "s6" .confirmed none 1000 3 0 0 0).outcome ≠
      .error (.txFailed "s6") := by
  have h := C6_error_propagation c6EvmEnv c6SolEnv "0x6" "s6" 1 none .confirmed 1000
  refine ⟨by decide, h.1 2 0 0 0 0 (some "rpc down") (by decide) rfl, ?_, ?_, ?_⟩
  · exact h.2.1 (fun i k r hik => by simp [c6EvmEnv] at hik) 3 0 0 0 0 "0x6"
  · exact h.2.2.1 2 0 0 0 (some "rpc down") (by decide) rfl
  · exact h.2.2.2 (fun i k st hik => by simp [c6SolEnv] at hik) 3 0 0 0 "s6"

/-! ### Claim C7: retries are invisible -/

/-- Claim C7: if in each poll the `getSignatureStatus` attempts fail
transiently up to `maxAttempts - 1 = 2` times and then succeed with the
same status an immediately-succeeding environment reports, the whole
unnamed-module Solana wait produces identical results in both
environments: the retries are invisible to the caller. -/
theorem C7_retry_transparency (envA envB : SolEnv) (sig : String) (c : Commitment)
    (mcs : Option Nat) (tms : Nat) (s : Nat → Option SigStatus) (kf : Nat → Nat)
    (hk : ∀ i, kf i < 3)
    (hfail : ∀ i j, j < kf i → ∃ e, envA.sigStatusAttempts i j = .error e)
    (hsucc : ∀ i, envA.sigStatusAttempts i (kf i) = .ok (s i))
    (hB : ∀ i j, envB.sigStatusAttempts i j = .ok (s i))
    (hblk : envA.blockAttempts = envB.blockAttempts)
    (ht : envA.rpcTime = envB.rpcTime) :
    ∀ fuel elapsed i polls,
      solWaitGo envA sig c mcs tms fuel elapsed i polls =
      solWaitGo envB sig c mcs tms fuel elapsed i polls := by
  apply solWaitGo_congr
  · intro i
    have hA := retryGo_success (envA.sigStatusAttempts i) 1000 (s i) (kf i) 3 0 none
      (hk i) (fun j hj => by simpa using hfail i j hj) (by simpa using hsucc i)
    have hBs := retryGo_success (envB.sigStatusAttempts i) 1000 (s i) 0 3 0 none
      (by omega) (fun j hj => by omega) (by simpa using hB i 0)
    calc (retryModel (envA.sigStatusAttempts i) 3 1000).outcome
        = .ok (s i) := by simp only [retryModel, hA]
      _ = (retryModel (envB.sigStatusAttempts i) 3 1000).outcome := by
          simp only [retryModel, hBs]
  · intro i
    rw [hblk]
  · intro i
    rw [ht]

/-- Status reported in the `C7` witness environments. -/
def c7St : SigStatus := ⟨none, 11, some 4, some .confirmed⟩

def c7AEnv : SolEnv :=
  { sigStatusAttempts := fun _ j =>
      if j < 2 then .error "transient" else .ok (some c7St),
    blockAttempts := fun _ _ => .ok (some ⟨"h7"⟩),
    rpcTime := fun _ => 0 }

def c7BEnv : SolEnv :=
  { sigStatusAttempts := fun _ _ => .ok (some c7St),
    blockAttempts := fun _ _ => .ok (some ⟨"h7"⟩),
    rpcTime := fun _ => 0 }

/-- Witness for `C7_retry_transparency`: an environment failing twice
per poll before succeeding produces the same run as the
immediately-succeeding one, and that run confirms. -/
theorem C7_retry_transparency_witness :
    (2 : Nat) < 3 ∧
    solWaitGo c7AEnv "s7" .confirmed none 5000 5 0 0 0 =
      solWaitGo c7BEnv "s7" .confirmed none 5000 5 0 0 0 ∧
    (solWaitGo c7BEnv "s7" .confirmed none 5000 5 0 0 0).outcome =
      .ok { txHash := "s7", status := .confirmed, blockNumber := some 11,
            blockHash := some "h7", confirmations := some 4 } := by
  refine ⟨by decide, ?_, rfl⟩
  have h := C7_retry_transparency c7AEnv c7BEnv "s7" .confirmed none 5000
    (fun _ => some c7St) (fun _ => 2)
    (fun i => by norm_num)
    (fun i j hj => ⟨"transient", by
      show (if j < 2 then (.error "transient" : Rpc (Option SigStatus))
        else .ok (some c7St)) = .error "transient"
      rw [if_pos hj]⟩)
    (fun i => rfl)
    (fun i j => rfl)
    rfl
    rfl
  exact h 5 0 0 0

/-! ### Claim C8: block-metadata fetch after a match -/

/-- Claim C8 (amended), covering both Solana implementations: on a
commitment-target match (no error, truthy slot), the block fetch goes
through `retry`, and when it rejects even after retries the tracker
continues polling with the next iteration — it neither fails nor
returns a result at that poll; and every confirmed result has
`blockNumber` and `confirmations` populated.  The first two conjuncts
state this for the unnamed module's loop, the last two for
packages/solana-sdk's loop.  (`blockHash` is not guaranteed: it is read
from a nullable block with `?.`, per `C8_counterexample`.) -/
theorem C8_amended (env : SolEnv) (envP : SolSimpleEnv) (sig : String)
    (c : Commitment) (mcs : Option Nat) (tms : Nat) :
    (∀ fuel elapsed i polls st e, elapsed < tms →
      (retryModel (env.sigStatusAttempts i) 3 1000).outcome = .ok (some st) →
      st.err.isSome = false →
      commitmentMatch c st.confirmationStatus →
      st.slot ≠ 0 →
      (retryModel (env.blockAttempts i) 3 1000).outcome = .error e →
      solWaitGo env sig c mcs tms (fuel + 1) elapsed i polls =
        solWaitGo env sig c mcs tms fuel (elapsed + env.rpcTime i + 500) (i + 1)
          (polls + 1)) ∧
    (∀ fuel elapsed i polls r,
      (solWaitGo env sig c mcs tms fuel elapsed i polls).outcome = .ok r →
      r.blockNumber.isSome ∧ r.confirmations.isSome) ∧
    (∀ fuel elapsed i polls st e, elapsed < tms →
      envP.sigStatus i = .ok (some st) →
      st.err.isSome = false →
      commitmentMatch c st.confirmationStatus →
      st.slot ≠ 0 →
      (retryModel (envP.blockAttempts i) 3 1000).outcome = .error e →
      solSimpleWaitGo envP sig c mcs tms (fuel + 1) elapsed i polls =
        solSimpleWaitGo envP sig c mcs tms fuel (elapsed + envP.rpcTime i + 500)
          (i + 1) (polls + 1)) ∧
    (∀ fuel elapsed i polls,
      (solSimpleWaitGo envP sig c mcs tms fuel elapsed i polls).result.status =
        TxStatus.confirmed →
      (solSimpleWaitGo envP sig c mcs tms fuel elapsed i polls).result.blockNumber.isSome ∧
      (solSimpleWaitGo envP sig c mcs tms fuel elapsed i polls).result.confirmations.isSome) := by
  refine ⟨?_, ?_, ?_, ?_⟩
  · intro fuel elapsed i polls st e he hst herr hm hslot hb
    simp only [solWaitGo, if_pos he, hst]
    rw [if_neg (by simp [herr])]
    rw [if_pos hm, if_pos hslot]
    simp only [hb]
  · intro fuel elapsed i polls r h
    have hs := sol_ok_shape env sig c mcs tms fuel elapsed i polls r h
    exact ⟨hs.2.2.1, hs.2.2.2⟩
  · intro fuel elapsed i polls st e he hst herr hm hslot hb
    simp only [solSimpleWaitGo, if_pos he, hst]
    rw [if_neg (by simp [herr])]
    rw [if_pos hm, if_pos hslot]
    simp only [hb]
  · intro fuel elapsed i polls h
    exact solSimple_confirmed_shape envP sig c mcs tms fuel elapsed i polls h

/-- Environment refuting claim C8's missing-fields conjunct: the status
matches the `confirmed` target at slot 5, and `getBlock` succeeds but
resolves null. -/
def c8Env : SolEnv :=
  { sigStatusAttempts := fun _ _ => .ok (some ⟨none, 5, some 2, some .confirmed⟩),
    blockAttempts := fun _ _ => .ok none,
    rpcTime := fun _ => 0 }

/-- Claim C8 counterexample: when `getBlock` succeeds but resolves
null, the tracker returns a `confirmed` result whose `blockHash` is
absent — a confirmed result with a missing required field, which the
claim rules out. -/
theorem C8_counterexample :
    (solWaitForConfirmation c8Env "sig" .confirmed (some 5) none).outcome =
      .ok { txHash := "sig", status := .confirmed, blockNumber := some 5,
            blockHash := none, confirmations := some 2 } := rfl

/-- Environment for the `C8` witness: a matching status whose block
fetch always rejects. -/
def c8WEnv : SolEnv :=
  { sigStatusAttempts := fun _ _ => .ok (some ⟨none, 5, some 2, some .confirmed⟩),
    blockAttempts := fun _ _ => .error "block fetch down",
    rpcTime := fun _ => 0 }

/-- Packages/solana-sdk analogue of `c8WEnv`: a matching status whose
block fetch always rejects. -/
def c8SimpleWEnv : SolSimpleEnv :=
  { sigStatus := fun _ => .ok (some ⟨none, 5, some 2, some .confirmed⟩),
    blockAttempts := fun _ _ => .error "block fetch down",
    rpcTime := fun _ => 0 }

/-- Packages/solana-sdk analogue of `c8Env`: a matching status whose
block fetch succeeds but resolves null. -/
def c8SimpleEnv : SolSimpleEnv :=
  { sigStatus := fun _ => .ok (some ⟨none, 5, some 2, some .confirmed⟩),
    blockAttempts := fun _ _ => .ok none,
    rpcTime := fun _ => 0 }

/-- Witness for `C8_amended` at concrete inputs: in both Solana
implementations a rejected block fetch defers completion to the next
iteration, and the populated-fields consequence holds on the concrete
confirmed runs. -/
theorem C8_amended_witness :
    (0 : Nat) < 5000 ∧
    solWaitGo c8WEnv "s8" .confirmed none 5000 3 0 0 0 =
      solWaitGo c8WEnv "s8" .confirmed none 5000 2 500 1 1 ∧
    ((solWaitGo c8Env "sig" .confirmed none 30000 1 0 0 0).outcome =
        .ok { txHash := "sig", status := .confirmed, blockNumber := some 5,
              blockHash := none, confirmations := some 2 } →
      (some (5 : Nat)).isSome ∧ (some (2 : Int)).isSome) ∧
    solSimpleWaitGo c8SimpleWEnv "s8" .confirmed none 5000 3 0 0 0 =
      solSimpleWaitGo c8SimpleWEnv "s8" .confirmed none 5000 2 500 1 1 ∧
    ((solSimpleWaitGo c8SimpleEnv "s8" .confirmed none 30000 1 0 0 0).result.status =
        TxStatus.confirmed →
      (solSimpleWaitGo c8SimpleEnv "s8" .confirmed none 30000 1 0 0 0).result.blockNumber.isSome ∧
      (solSimpleWaitGo c8SimpleEnv "s8" .confirmed none 30000 1 0 0 0).result.confirmations.isSome) := by
  have h := C8_amended c8WEnv c8SimpleWEnv "s8" .confirmed none 5000
  refine ⟨by decide, ?_, ?_, ?_, ?_⟩
  · exact h.1 2 0 0 0 ⟨none, 5, some 2, some .confirmed⟩ (some "block fetch down")
      (by decide) rfl rfl (Or.inl rfl) (by decide) rfl
  · intro hrun
    exact (C8_amended c8Env c8SimpleEnv "sig" .confirmed none 30000).2.1
      1 0 0 0 _ hrun
  · exact h.2.2.1 2 0 0 0 ⟨none, 5, some 2, some .confirmed⟩
      (some "block fetch down") (by decide) rfl rfl (Or.inl rfl) (by decide) rfl
  · intro hrun
    exact (C8_amended c8Env c8SimpleEnv "s8" .confirmed none 30000).2.2.2
      1 0 0 0 hrun

/-! ### Claim C10: hard-coded confirmation count -/

/-- Claim C10: for every EVM wait with `maxConfirmations ≤ 1`, the loop
never queries the current block number (the `getBlockNumber` call count
never grows), and every confirmed result reports exactly
`confirmations = 1`, for every environment — i.e. independently of the
transaction's actual confirmation depth on chain. -/
theorem C10_evm_hardcoded_confirmation_count (env : EvmEnv) (tx : String)
    (mc : Int) (tms : Nat) (hmc : mc ≤ 1) :
    ∀ fuel elapsed i polls bc,
      (evmWaitGo env tx mc tms fuel elapsed i polls bc).blockNumberCalls = bc ∧
      ∀ r, (evmWaitGo env tx mc tms fuel elapsed i polls bc).outcome = .ok r →
        r.confirmations = some 1 := by
  intro fuel elapsed i polls bc
  have h := evm_lowconf_invariant env tx mc tms hmc fuel elapsed i polls bc
  exact ⟨h.1, h.2⟩

/-- Environment for the `C10` witness: a healthy receipt at block 3
while the chain head is at block 1000000 — the actual depth is huge, yet
the reported count is 1. -/
def c10Env : EvmEnv :=
  { receiptAttempts := fun _ _ => .ok (some ⟨"0xa", 3, "0xh", 1⟩),
    currentBlock := fun _ => .ok 1000000,
    rpcTime := fun _ => 0 }

/-- Witness for `C10_evm_hardcoded_confirmation_count` at a concrete
environment: no `getBlockNumber` call is made and the confirmed result
reports `confirmations = 1`. -/
theorem C10_evm_hardcoded_confirmation_count_witness :
    ((1 : Int) ≤ 1) ∧
    (evmWaitGo c10Env "0xa" 1 60000 5 0 0 0 0).blockNumberCalls = 0 ∧
    ((evmWaitGo c10Env "0xa" 1 60000 5 0 0 0 0).outcome =
        .ok { txHash := "0xa", status := .confirmed, blockNumber := some 3,
              blockHash := some "0xh", confirmations := some 1 } →
      ({ txHash := "0xa", status := .confirmed, blockNumber := some 3,
         blockHash := some "0xh",
         confirmations := some 1 } : TransactionResult).confirmations = some 1) := by
  have h := C10_evm_hardcoded_confirmation_count c10Env "0xa" 1 60000 (by decide)
    5 0 0 0 0
  exact ⟨by decide, h.1, fun hrun => h.2 _ hrun⟩

end Pyro
